import Mathlib

/-
Shallow embedding of the query-interpretation and dispatch core of the
saturday-night repository (a natural-language front end over a Google-Sheets
tabular source and a QuickBooks invoice source).

Strings are modelled as `List Char`.  The JavaScript regular expressions of
the source are embedded as explicit scanner functions: a regex `query.match(p)`
is modelled by trying the pattern at every position of the text from the left,
exactly as the JS engine does; wherever the JS engine could backtrack we either
enumerate the candidates in the engine's order (greedy stars descending,
alternations left to right) or argue in a comment that backtracking cannot
change the outcome for that particular pattern.  Character tests are written
over `Char.toNat` so that proofs reduce to arithmetic.
-/

/-- ASCII lower-casing of one character, as `String.prototype.toLowerCase`
acts on the ASCII range (all pattern keywords of the source are ASCII). -/
def lowerc (c : Char) : Char :=
  if 65 ≤ c.toNat ∧ c.toNat ≤ 90 then Char.ofNat (c.toNat + 32) else c

/-- Lower-casing of a whole text (`query.toLowerCase()`). -/
def lowerl (l : List Char) : List Char := l.map lowerc

/-- Abbreviation turning a string literal into the `List Char` representation. -/
def str (s : String) : List Char := s.toList

/-- `startsWithL pat text`: `text` begins with `pat` (exact characters). -/
def startsWithL : List Char → List Char → Bool
  | [], _ => true
  | _ :: _, [] => false
  | p :: ps, t :: ts => if p = t then startsWithL ps ts else false

/-- `subStr text pat`: JavaScript `text.includes(pat)`. -/
def subStr : List Char → List Char → Bool
  | [], pat => startsWithL pat []
  | c :: t, pat => startsWithL pat (c :: t) || subStr t pat

/-- Decimal digit test (`\d`). -/
def dchar (c : Char) : Bool := decide (48 ≤ c.toNat ∧ c.toNat ≤ 57)

/-- Numeric value of a decimal digit character. -/
def dval (c : Char) : Nat := c.toNat - 48

/-- Whitespace test (`\s`); the ASCII part of the JavaScript class, which is
all the source's queries ever contain. -/
def spc (c : Char) : Bool :=
  decide (c.toNat = 32 ∨ c.toNat = 9 ∨ c.toNat = 10 ∨ c.toNat = 13 ∨
    c.toNat = 11 ∨ c.toNat = 12)

/-- Word-character test (`\w` = `[A-Za-z0-9_]`). -/
def wchar (c : Char) : Bool :=
  decide ((65 ≤ c.toNat ∧ c.toNat ≤ 90) ∨ (97 ≤ c.toNat ∧ c.toNat ≤ 122) ∨
    (48 ≤ c.toNat ∧ c.toNat ≤ 57) ∨ c.toNat = 95)

/-- Space-or-word test (`[\s\w]`). -/
def swchar (c : Char) : Bool := spc c || wchar c

/-- Quote test (the `["']` class). -/
def quotec (c : Char) : Bool := decide (c.toNat = 34 ∨ c.toNat = 39)

/-- Colon-or-space test (the `[:\s]` class). -/
def colsp (c : Char) : Bool := decide (c.toNat = 58) || spc c

/-- Characters allowed in a captured spreadsheet id (`[a-zA-Z0-9-_]`). -/
def idchar (c : Char) : Bool := wchar c || decide (c.toNat = 45)

/-- Numeric value of a digit run (`parseInt` on a `\d+` capture). -/
def natOf (l : List Char) : Nat := l.foldl (fun a c => a * 10 + dval c) 0

/-- Decimal rendering of a natural number (JS number-to-string for integers). -/
def natChars (n : Nat) : List Char := Nat.toDigits 10 n

/-- First-result choice over a candidate list: the JS backtracking engine
takes the first candidate (in engine order) whose continuation succeeds. -/
def pick {α β : Type} : List α → (α → Option β) → Option β
  | [], _ => none
  | x :: t, f => match f x with | some b => some b | none => pick t f

/-- Candidates for a greedy star over the character class `p` starting at `l`:
the suffixes of `l` after consuming `k` class characters, `k` descending from
the maximal run length to 0 (the order a greedy `p*` tries them in). -/
def starCands (p : Char → Bool) (l : List Char) : List (List Char) :=
  let run := (l.takeWhile p).length
  (List.range (run + 1)).map (fun i => l.drop (run - i))

/-- Case-insensitive literal match: strips `pat` from the front of `text`
(a `/i` regex literal). -/
def stripCI : List Char → List Char → Option (List Char)
  | [], l => some l
  | _ :: _, [] => none
  | p :: ps, t :: ts => if lowerc p = lowerc t then stripCI ps ts else none

/-- First alternative of `alts` (in order) that matches at the front of `l`.
Every alternation this file uses it for has pairwise non-overlapping
alternatives (no two can match at the same position), so taking the first
match loses no backtracking. -/
def matchAlt (alts : List (List Char)) (l : List Char) : Option (List Char) :=
  match alts with
  | [] => none
  | a :: rest =>
    match stripCI a l with
    | some r => some r
    | none => matchAlt rest l

/-- Greedy `\s*` (no pattern in this file can backtrack into it: every
continuation starts with a non-space character). -/
def skipSpaces : List Char → List Char
  | [] => []
  | c :: t => if spc c then skipSpaces t else c :: t

/-- JavaScript `String.prototype.trim` over the modelled whitespace class. -/
def trimL (l : List Char) : List Char :=
  ((l.dropWhile spc).reverse.dropWhile spc).reverse

/- ----------------------------------------------------------------------
Calendar model.  The source manipulates JS `Date` values and renders them
with `toISOString().split('T')[0]`; the deployment target (a Cloudflare
worker) runs in UTC, so a date is a plain civil triple. Month is 1-based.
---------------------------------------------------------------------- -/

structure SimpleDate where
  year : Nat
  month : Nat
  day : Nat
deriving DecidableEq, Repr

/-- Gregorian leap-year rule (as implemented by JS `Date`). -/
def leapYear (y : Nat) : Bool :=
  (y % 4 = 0 && y % 100 != 0) || y % 400 = 0

/-- Days in the given month (1-based) of the given year. -/
def mdays (y m : Nat) : Nat :=
  if m = 2 then (if leapYear y then 29 else 28)
  else if m = 4 ∨ m = 6 ∨ m = 9 ∨ m = 11 then 30
  else 31

/-- Two-digit zero-padded rendering (month/day fields of `toISOString`). -/
def pad2 (n : Nat) : List Char := if n < 10 then '0' :: natChars n else natChars n

/-- Four-digit zero-padded rendering (year field of `toISOString`). -/
def pad4 (n : Nat) : List Char :=
  if n < 10 then '0' :: '0' :: '0' :: natChars n
  else if n < 100 then '0' :: '0' :: natChars n
  else if n < 1000 then '0' :: natChars n
  else natChars n

/-- `d.toISOString().split('T')[0]`: the `YYYY-MM-DD` rendering of a date. -/
def isoOf (d : SimpleDate) : List Char :=
  pad4 d.year ++ '-' :: (pad2 d.month ++ '-' :: pad2 d.day)

/-- The calendar day before `d` (JS `setDate(getDate() - 1)` semantics). -/
def prevDay (d : SimpleDate) : SimpleDate :=
  if 1 < d.day then ⟨d.year, d.month, d.day - 1⟩
  else if 1 < d.month then ⟨d.year, d.month - 1, mdays d.year (d.month - 1)⟩
  else ⟨d.year - 1, 12, 31⟩

/-- `n` calendar days before `d`. -/
def subDays (d : SimpleDate) : Nat → SimpleDate
  | 0 => d
  | n + 1 => subDays (prevDay d) n

/-- Days from 1970-01-01 to the first day of year `y` (for `y ≥ 1970`). -/
def daysBeforeYear (y : Nat) : Nat :=
  (List.range (y - 1970)).foldl
    (fun acc i => acc + (if leapYear (1970 + i) then 366 else 365)) 0

/-- Zero-based day-of-year of `d`. -/
def dayOfYear (d : SimpleDate) : Nat :=
  (List.range (d.month - 1)).foldl (fun acc i => acc + mdays d.year (i + 1)) 0
    + (d.day - 1)

/-- Days since the Unix epoch. -/
def epochDays (d : SimpleDate) : Nat := daysBeforeYear d.year + dayOfYear d

/-- JS `Date.prototype.getDay`: 0 = Sunday; 1970-01-01 was a Thursday (4). -/
def weekday (d : SimpleDate) : Nat := (epochDays d + 4) % 7

/- ----------------------------------------------------------------------
ISO date patterns.  The source uses (src/src/query-parser.ts:108)
  /(\d{4}-\d{2}-\d{2})(?:\s*(?:to|through|-|until)\s*(\d{4}-\d{2}-\d{2}))?/
and (src/src/quickbooks.ts:158) the same shape with the pair mandatory.
---------------------------------------------------------------------- -/

/-- Consume exactly `n` decimal digits, returning them and the rest. -/
def matchDigitsCount : Nat → List Char → Option (List Char × List Char)
  | 0, l => some ([], l)
  | _ + 1, [] => none
  | n + 1, c :: t =>
    if dchar c then
      match matchDigitsCount n t with
      | some p => some (c :: p.1, p.2)
      | none => none
    else none

/-- Consume a literal dash. -/
def matchDash : List Char → Option (List Char)
  | c :: t => if c = '-' then some t else none
  | [] => none

/-- Consume `\d{4}-\d{2}-\d{2}` at the front of the text, returning the ten
matched characters and the rest.  The pattern is deterministic (fixed
counts), so no backtracking arises. -/
def matchIsoDate (l : List Char) : Option (List Char × List Char) :=
  match matchDigitsCount 4 l with
  | none => none
  | some (d4, r1) =>
    match matchDash r1 with
    | none => none
    | some r2 =>
      match matchDigitsCount 2 r2 with
      | none => none
      | some (d2, r3) =>
        match matchDash r3 with
        | none => none
        | some r4 =>
          match matchDigitsCount 2 r4 with
          | none => none
          | some (d2b, r5) => some (d4 ++ '-' :: (d2 ++ '-' :: d2b), r5)

/-- A text that is exactly one `YYYY-MM-DD` shape. -/
def isoShaped (s : List Char) : Bool := matchIsoDate s == some (s, [])

/-- The date-pair separators, in the source's alternation order.  Their first
characters are pairwise distinct except `to`/`through`, which already differ
at the second character, so at most one alternative matches at a position and
cross-alternative backtracking is impossible. -/
def sepAlts : List (List Char) := [str "to", str "through", str "-", str "until"]

/-- Consume `\s*(?:alt …)\s*\d{4}-\d{2}-\d{2}`, returning the second date and
the rest.  Greedy `\s*` needs no backtracking: no separator starts with a
space and no date starts with a space. -/
def matchSepDateW (alts : List (List Char)) (l : List Char) :
    Option (List Char × List Char) :=
  match matchAlt alts (skipSpaces l) with
  | none => none
  | some r => matchIsoDate (skipSpaces r)

/-- The separated second date with the source's `to|through|-|until` set. -/
def matchSepDate (l : List Char) : Option (List Char × List Char) :=
  matchSepDateW sepAlts l

/-- One attempt of the query-parser ISO pattern at the current position:
first date plus the optional separated second date. -/
def isoAt (l : List Char) : Option (List Char × Option (List Char)) :=
  match matchIsoDate l with
  | none => none
  | some (d1, rest) =>
    match matchSepDate rest with
    | some (d2, _) => some (d1, some d2)
    | none => some (d1, none)

/-- Left-to-right scan of the query-parser ISO pattern (`String.match`). -/
def scanIso : List Char → Option (List Char × Option (List Char))
  | [] => none
  | c :: t =>
    match isoAt (c :: t) with
    | some r => some r
    | none => scanIso t

/-- One attempt of the QuickBooks mandatory pair pattern at a position. -/
def isoPairAt (l : List Char) : Option (List Char × List Char) :=
  match matchIsoDate l with
  | none => none
  | some (d1, rest) =>
    match matchSepDate rest with
    | some (d2, _) => some (d1, d2)
    | none => none

/-- Left-to-right scan of the QuickBooks pair pattern. -/
def scanIsoPair : List Char → Option (List Char × List Char)
  | [] => none
  | c :: t =>
    match isoPairAt (c :: t) with
    | some r => some r
    | none => scanIsoPair t

/-- Scan for the QuickBooks single-date pattern body `\s*(\d{4}-\d{2}-\d{2})`
after one of the given lead keywords (`since|after|from`, `before|until`). -/
def kwDateAt (kws : List (List Char)) (l : List Char) : Option (List Char) :=
  match matchAlt kws l with
  | none => none
  | some r =>
    match matchIsoDate (skipSpaces r) with
    | some (d, _) => some d
    | none => none

/-- Left-to-right scan for a keyword-led single date. -/
def scanKwDate (kws : List (List Char)) : List Char → Option (List Char)
  | [] => none
  | c :: t =>
    match kwDateAt kws (c :: t) with
    | some r => some r
    | none => scanKwDate kws t

/-- A resolved date range; `endd` models the source's `end` field (a Lean
keyword). -/
structure DateRange where
  start : List Char
  endd : List Char
deriving DecidableEq, Repr

/-- The relative-date keywords of `QueryParser.DATE_PATTERNS.relative`
(src/src/query-parser.ts:14-69), in `Object.entries` insertion order. -/
def relKeys : List (List Char) :=
  [str "today", str "yesterday", str "this week", str "last week",
   str "this month", str "last month", str "this year"]

/-- The month-name table of `QueryParser.DATE_PATTERNS.months`. -/
def monthNames : List (List Char) :=
  [str "january", str "february", str "march", str "april", str "may",
   str "june", str "july", str "august", str "september", str "october",
   str "november", str "december"]

/-- First list element satisfying `p`, with its 0-based index (models
`findIndex`-style first-match loops of the source). -/
def findMatchC {α : Type} (p : α → Bool) : List α → Option (Nat × α)
  | [] => none
  | a :: t =>
    if p a then some (0, a)
    else match findMatchC p t with
      | some x => some (x.1 + 1, x.2)
      | none => none

/-- One attempt of `\b(20\d{2})\b` given the previous character (for the
left word boundary); `\d{2}` is fixed-width so the right boundary cannot be
restored by backtracking. -/
def yearAt (prev : Option Char) : List Char → Option Nat
  | '2' :: '0' :: a :: b :: rest =>
    if (match prev with | none => true | some p => !wchar p) &&
        dchar a && dchar b &&
        (match rest with | [] => true | d :: _ => !wchar d) then
      some (2000 + (10 * dval a + dval b))
    else none
  | _ => none

/-- Left-to-right scan of `\b(20\d{2})\b` (src/src/query-parser.ts:96). -/
def scanYearAux (prev : Option Char) : List Char → Option Nat
  | [] => none
  | c :: t =>
    match yearAt prev (c :: t) with
    | some y => some y
    | none => scanYearAux (some c) t

def scanYear (l : List Char) : Option Nat := scanYearAux none l

/-- `QueryParser.parseDateRange` (src/src/query-parser.ts:81-119).
Strategy order as in the source: the relative-keyword table first, then the
month-name table (with an optional explicit `20xx` year), then the ISO
pattern.  `now` models the current UTC date read from `new Date()`. -/
def parseDateRange (now : SimpleDate) (query : List Char) : Option DateRange :=
  let lower := lowerl query
  if subStr lower (str "today") then some ⟨isoOf now, isoOf now⟩
  else if subStr lower (str "yesterday") then
    some ⟨isoOf (prevDay now), isoOf (prevDay now)⟩
  else if subStr lower (str "this week") then
    some ⟨isoOf (subDays now (weekday now)), isoOf now⟩
  else if subStr lower (str "last week") then
    some ⟨isoOf (subDays (subDays now (weekday now + 1)) 6),
          isoOf (subDays now (weekday now + 1))⟩
  else if subStr lower (str "this month") then
    some ⟨isoOf ⟨now.year, now.month, 1⟩, isoOf now⟩
  else if subStr lower (str "last month") then
    some ⟨isoOf ⟨(if now.month = 1 then now.year - 1 else now.year),
                 (if now.month = 1 then 12 else now.month - 1), 1⟩,
          isoOf ⟨(if now.month = 1 then now.year - 1 else now.year),
                 (if now.month = 1 then 12 else now.month - 1),
                 mdays (if now.month = 1 then now.year - 1 else now.year)
                   (if now.month = 1 then 12 else now.month - 1)⟩⟩
  else if subStr lower (str "this year") then
    some ⟨isoOf ⟨now.year, 1, 1⟩, isoOf now⟩
  else
    match findMatchC (fun m => subStr lower m) monthNames with
    | some (i, _) =>
      let year := (scanYear query).getD now.year
      some ⟨isoOf ⟨year, i + 1, 1⟩, isoOf ⟨year, i + 1, mdays year (i + 1)⟩⟩
    | none =>
      match scanIso query with
      | some (d1, some d2) => some ⟨d1, d2⟩
      | some (d1, none) => some ⟨d1, d1⟩
      | none => none

/-- One attempt of the QuickBooks second pattern
`(?:between|from)\s*(\d{4}-\d{2}-\d{2})\s*(?:and|to)\s*(\d{4}-\d{2}-\d{2})`
(src/src/quickbooks.ts:159).  `between`/`from` and `and`/`to` each start with
distinct characters, so the alternations are deterministic. -/
def betweenPairAt (l : List Char) : Option (List Char × List Char) :=
  match matchAlt [str "between", str "from"] l with
  | none => none
  | some r =>
    match matchIsoDate (skipSpaces r) with
    | none => none
    | some (d1, rest) =>
      match matchSepDateW [str "and", str "to"] rest with
      | some (d2, _) => some (d1, d2)
      | none => none

/-- Left-to-right scan of the QuickBooks second pattern. -/
def scanBetweenPair : List Char → Option (List Char × List Char)
  | [] => none
  | c :: t =>
    match betweenPairAt (c :: t) with
    | some r => some r
    | none => scanBetweenPair t

/-- The relative-date fallback of `QuickBooksService.parseQuery`
(src/src/quickbooks.ts:184-209): only `today`, `this week`, `this month`,
`last month` are recognised there.  The `this week` branch mutates `now`
via `setDate` but the produced values equal the ones below. -/
def qbRelative (now : SimpleDate) (lower : List Char) : Option DateRange :=
  if subStr lower (str "today") then some ⟨isoOf now, isoOf now⟩
  else if subStr lower (str "this week") then
    some ⟨isoOf (subDays now (weekday now)), isoOf now⟩
  else if subStr lower (str "this month") then
    some ⟨isoOf ⟨now.year, now.month, 1⟩, isoOf now⟩
  else if subStr lower (str "last month") then
    some ⟨isoOf ⟨(if now.month = 1 then now.year - 1 else now.year),
                 (if now.month = 1 then 12 else now.month - 1), 1⟩,
          isoOf ⟨(if now.month = 1 then now.year - 1 else now.year),
                 (if now.month = 1 then 12 else now.month - 1),
                 mdays (if now.month = 1 then now.year - 1 else now.year)
                   (if now.month = 1 then 12 else now.month - 1)⟩⟩
  else none

/-- The date-range section of `QuickBooksService.parseQuery`
(src/src/quickbooks.ts:153-209): four explicit patterns in order (pair,
between-pair, since/after/from single, before/until single), first match
wins, then the relative keywords.  For a single date the source re-tests
`since|after|from` on the whole lowered query to pick the open end. -/
def qbParseDate (now : SimpleDate) (query : List Char) : Option DateRange :=
  let lower := lowerl query
  let single := fun (d : List Char) =>
    if subStr lower (str "since") || subStr lower (str "after") ||
        subStr lower (str "from") then
      some (DateRange.mk d (isoOf now))
    else some (DateRange.mk (str "2020-01-01") d)
  match scanIsoPair query with
  | some (a, b) => some ⟨a, b⟩
  | none =>
    match scanBetweenPair query with
    | some (a, b) => some ⟨a, b⟩
    | none =>
      match scanKwDate [str "since", str "after", str "from"] query with
      | some d => single d
      | none =>
        match scanKwDate [str "before", str "until"] query with
        | some d => single d
        | none => qbRelative now lower

/- ----------------------------------------------------------------------
Amount and limit patterns of `QuickBooksService.parseQuery`
(src/src/quickbooks.ts:211-242).  Monetary values are modelled in cents:
the source's `parseFloat` only ever sees captures of shape `\d+(\.\d{2})?`,
which are exactly the numbers with at most two decimals.
---------------------------------------------------------------------- -/

/-- Consume `\d+(?:\.\d{2})?` at the front, returning the value in cents and
the rest.  The greedy `\d+` never usefully backtracks in the source's
patterns: giving digits back leaves a digit as the next character, and every
continuation (a separator or the fraction dot) starts with a non-digit.  The
optional fraction commits when a dot with two digits follows; when the
commit later fails the fallback would resume at a `.` character, which no
continuation accepts either. -/
def matchNum (l : List Char) : Option (Nat × List Char) :=
  let ds := l.takeWhile dchar
  if ds.isEmpty then none
  else
    let r := l.dropWhile dchar
    match r with
    | '.' :: a :: b :: r3 =>
      if dchar a && dchar b then some (natOf ds * 100 + (10 * dval a + dval b), r3)
      else some (natOf ds * 100, r)
    | _ => some (natOf ds * 100, r)

/-- Consume `\$?` then a number: if a dollar sign is present the number must
follow it (backtracking to the no-dollar branch would restart at `$`, which
is not a digit). -/
def matchDollarNum (l : List Char) : Option (Nat × List Char) :=
  match l with
  | '$' :: t => matchNum t
  | _ => matchNum l

/-- One attempt of amount pattern 1
`(?:amount|total|value)\s*(?:between|from)\s*\$?n\s*(?:to|and|-)\s*\$?n`. -/
def amtBetweenAt (l : List Char) : Option (Nat × Nat) :=
  match matchAlt [str "amount", str "total", str "value"] l with
  | none => none
  | some r1 =>
    match matchAlt [str "between", str "from"] (skipSpaces r1) with
    | none => none
    | some r2 =>
      match matchDollarNum (skipSpaces r2) with
      | none => none
      | some (n1, r3) =>
        match matchAlt [str "to", str "and", str "-"] (skipSpaces r3) with
        | none => none
        | some r4 =>
          match matchDollarNum (skipSpaces r4) with
          | none => none
          | some (n2, _) => some (n1, n2)

/-- One attempt of amount pattern 2 `\$?n\s*(?:to|-)\s*\$?n`. -/
def amtPairAt (l : List Char) : Option (Nat × Nat) :=
  match matchDollarNum l with
  | none => none
  | some (n1, r1) =>
    match matchAlt [str "to", str "-"] (skipSpaces r1) with
    | none => none
    | some r2 =>
      match matchDollarNum (skipSpaces r2) with
      | none => none
      | some (n2, _) => some (n1, n2)

/-- One attempt of a keyword-led single amount
(`(?:over|above|greater than)\s*\$?n` and `(?:under|below|less than)\s*\$?n`). -/
def amtKwAt (kws : List (List Char)) (l : List Char) : Option Nat :=
  match matchAlt kws l with
  | none => none
  | some r =>
    match matchDollarNum (skipSpaces r) with
    | none => none
    | some (n, _) => some n

/-- Left-to-right scan of an at-position amount matcher. -/
def scanAmt {β : Type} (at_ : List Char → Option β) : List Char → Option β
  | [] => none
  | c :: t =>
    match at_ (c :: t) with
    | some r => some r
    | none => scanAmt at_ t

/-- The amount-range section of `QuickBooksService.parseQuery`
(src/src/quickbooks.ts:211-238): four patterns in order, first match wins;
a single amount is opened upward when the lowered query mentions
`over`/`above`/`greater`, else clamped to `[0, amount]`.  999999 dollars is
the sentinel maximum. -/
def qbParseAmount (lower query : List Char) : Option (Nat × Nat) :=
  let single := fun (n : Nat) =>
    if subStr lower (str "over") || subStr lower (str "above") ||
        subStr lower (str "greater") then
      some (n, 99999900)
    else some (0, n)
  match scanAmt amtBetweenAt query with
  | some (a, b) => some (a, b)
  | none =>
    match scanAmt amtPairAt query with
    | some (a, b) => some (a, b)
    | none =>
      match scanAmt (amtKwAt [str "over", str "above", str "greater than"]) query with
      | some n => single n
      | none =>
        match scanAmt (amtKwAt [str "under", str "below", str "less than"]) query with
        | some n => single n
        | none => none

/-- One attempt of the limit pattern `(?:kw …)\s*(\d+)` shared by both
services; the keyword sets differ. -/
def limitAt (kws : List (List Char)) (l : List Char) : Option Nat :=
  match matchAlt kws l with
  | none => none
  | some r =>
    let ds := (skipSpaces r).takeWhile dchar
    if ds.isEmpty then none else some (natOf ds)

/-- Left-to-right scan of the limit pattern. -/
def scanLimit (kws : List (List Char)) : List Char → Option Nat
  | [] => none
  | c :: t =>
    match limitAt kws (c :: t) with
    | some r => some r
    | none => scanLimit kws t

/-- `\b\d+\b` test on the raw query (src/src/quickbooks.ts:149): some maximal
digit run has a non-word (or absent) character on each side.  Backtracking
inside a run never helps because the following character would be a digit,
hence a word character. -/
def wordNumAux (prev : Option Char) : List Char → Bool
  | [] => false
  | c :: t =>
    (dchar c &&
      (match prev with | none => true | some p => !wchar p) &&
      (match t.dropWhile dchar with | [] => true | d :: _ => !wchar d)) ||
    wordNumAux (some c) t

def hasWordNum (query : List Char) : Bool := wordNumAux none query

inductive QBAction
  | search_invoices
  | get_invoice
  | get_company_info
deriving DecidableEq, Repr

/-- The structured result of `QuickBooksService.parseQuery`
(`QuickBooksQueryParams`, amounts in cents). -/
structure QBParams where
  action : QBAction
  dateRange : Option DateRange
  amountRange : Option (Nat × Nat)
  limit : Nat
deriving DecidableEq, Repr

/-- `QuickBooksService.parseQuery` (src/src/quickbooks.ts:142-250).  Action:
`company`/`info` anywhere selects company info; else `invoice` together with
a standalone number (`\b\d+\b`) selects a single-invoice fetch; else the
invoice search.  Date range, amount range and limit as modelled above; the
limit keyword set is `first|top|limit|show` with default 10. -/
def qbParseQuery (now : SimpleDate) (query : List Char) : QBParams :=
  let lower := lowerl query
  let action :=
    if subStr lower (str "company") || subStr lower (str "info") then
      QBAction.get_company_info
    else if subStr lower (str "invoice") && hasWordNum query then
      QBAction.get_invoice
    else QBAction.search_invoices
  { action := action
    dateRange := qbParseDate now query
    amountRange := qbParseAmount lower query
    limit := (scanLimit [str "first", str "top", str "limit", str "show"]
      query).getD 10 }

/- ----------------------------------------------------------------------
`GoogleSheetsService.parseQuery` (src/src/google-sheets.ts:109-148).
The three capturing regexes here genuinely backtrack, so their stars are
embedded as descending candidate lists combined with `pick` (first
candidate whose continuation succeeds, the JS engine's order).
---------------------------------------------------------------------- -/

/-- One attempt of `/(?:spreadsheet|sheet)[\s\w]*id[:\s]*([a-zA-Z0-9-_]+)/i`
(src/src/google-sheets.ts:113).  `spreadsheet` and `sheet` diverge at their
second character, so the alternation is deterministic; `[:\s]*` and the
capture class are disjoint, so that star never backtracks. -/
def sheetIdAt (l : List Char) : Option (List Char) :=
  match matchAlt [str "spreadsheet", str "sheet"] l with
  | none => none
  | some r =>
    pick (starCands swchar r) (fun r2 =>
      match stripCI (str "id") r2 with
      | none => none
      | some r3 =>
        let cap := (r3.dropWhile colsp).takeWhile idchar
        if cap.isEmpty then none else some cap)

/-- Left-to-right scan of the spreadsheet-id pattern. -/
def scanSheetId : List Char → Option (List Char)
  | [] => none
  | c :: t =>
    match sheetIdAt (c :: t) with
    | some r => some r
    | none => scanSheetId t

/-- Candidates of an optional alternation `(?:a|b)?`: each alternative that
matches, in order, then the empty branch. -/
def optAlts (alts : List (List Char)) (l : List Char) : List (List Char) :=
  (alts.filterMap (fun a => stripCI a l)) ++ [l]

/-- Candidates of an optional quote `["']?`: consume one quote if present,
then the empty branch. -/
def optQuote (l : List Char) : List (List Char) :=
  match l with
  | c :: t => if quotec c then [t, c :: t] else [c :: t]
  | [] => [[]]

/-- One attempt of
`/(?:sheet|tab)[\s\w]*(?:named|called)?[\s]*["']?([^"'\n]+)["']?/i`
(src/src/google-sheets.ts:121).  The capture `([^"'\n]+)` is greedy and the
trailing `["']?` always succeeds, so the capture never backtracks; the
earlier stars and options do, in engine order. -/
def sheetNameAt (l : List Char) : Option (List Char) :=
  match matchAlt [str "sheet", str "tab"] l with
  | none => none
  | some r =>
    pick (starCands swchar r) (fun rA =>
      pick (optAlts [str "named", str "called"] rA) (fun rB =>
        pick (starCands spc rB) (fun rC =>
          pick (optQuote rC) (fun rD =>
            let cap := rD.takeWhile
              (fun c => !quotec c && decide (c.toNat ≠ 10))
            if cap.isEmpty then none else some cap))))

/-- Left-to-right scan of the sheet-name pattern. -/
def scanSheetName : List Char → Option (List Char)
  | [] => none
  | c :: t =>
    match sheetNameAt (c :: t) with
    | some r => some r
    | none => scanSheetName t

/-- Keyword candidates of `(?:only|just|fields?|columns?)`: the optional `s`
of `fields?`/`columns?` is greedy, so the with-`s` variant is tried before
the without-`s` one. -/
def colKwCands (l : List Char) : List (List Char) :=
  (stripCI (str "only") l).toList ++ (stripCI (str "just") l).toList ++
  (match stripCI (str "field") l with
   | some r =>
     (match r with
      | c :: t => if lowerc c = 's' then [t, c :: t] else [c :: t]
      | [] => [[]])
   | none => []) ++
  (match stripCI (str "column") l with
   | some r =>
     (match r with
      | c :: t => if lowerc c = 's' then [t, c :: t] else [c :: t]
      | [] => [[]])
   | none => [])

/-- The lazy capture `(.+?)(?:\s|$)`: the shortest nonempty prefix of
non-line-terminator characters whose following character is whitespace or
the end of the text. -/
def lazyCap : List Char → Option (List Char)
  | [] => none
  | c :: t =>
    if decide (c.toNat = 10 ∨ c.toNat = 13) then none
    else
      match t with
      | [] => some [c]
      | d :: _ =>
        if spc d then some [c]
        else match lazyCap t with
          | some cap => some (c :: cap)
          | none => none

/-- One attempt of
`/(?:only|just|fields?|columns?)[\s]*[:]*[\s]*(.+?)(?:\s|$)/i`
(src/src/google-sheets.ts:125), with full backtracking over the keyword
variants and the three stars. -/
def colCapAt (l : List Char) : Option (List Char) :=
  pick (colKwCands l) (fun r1 =>
    pick (starCands spc r1) (fun r2 =>
      pick (starCands (fun c => decide (c.toNat = 58)) r2) (fun r3 =>
        pick (starCands spc r3) (fun r4 => lazyCap r4))))

/-- Left-to-right scan of the column-filter pattern. -/
def scanColCap : List Char → Option (List Char)
  | [] => none
  | c :: t =>
    match colCapAt (c :: t) with
    | some r => some r
    | none => scanColCap t

/-- `capture.split(/[,&\s]+/)`: split on maximal runs of commas, ampersands
and whitespace.  A leading run yields JavaScript's initial empty piece,
which the later length filter drops anyway. -/
def splitSepc (c : Char) : Bool := decide (c.toNat = 44 ∨ c.toNat = 38) || spc c

def splitRuns : List Char → List (List Char)
  | [] => []
  | c :: t =>
    if splitSepc c then splitRuns t
    else
      ((c :: t).takeWhile (fun d => !splitSepc d)) ::
        splitRuns (t.dropWhile (fun d => !splitSepc d))
termination_by l => l.length
decreasing_by
  · simp
  · have := (List.dropWhile_suffix (p := fun d => !splitSepc d)
      (l := t)).length_le
    simp only [List.length_cons]
    omega

inductive SheetAction
  | get_rows
  | get_sheet_info
  | get_range
deriving DecidableEq, Repr

/-- The structured result of `GoogleSheetsService.parseQuery` (`ParsedQuery`
of the source's types; the `range`/`filters` fields are never produced by
`parseQuery` and are omitted). -/
structure ParsedQuery where
  action : SheetAction
  spreadsheetId : List Char
  sheetName : Option (List Char)
  limit : Nat
  offset : Option Nat
  requestedColumns : Option (List (List Char))
deriving DecidableEq, Repr

/-- `GoogleSheetsService.parseQuery` (src/src/google-sheets.ts:109-148).
Source id resolution: inline pattern capture, else the caller override, else
the configured default; the absence of all three is the only failure
(`none` models the thrown error).  The limit keyword set here also contains
`last` and the default is 5; `offset` is `undefined` when the lowered query
mentions `last`, else 0; the captured column list is split, trimmed and
filtered of empties. -/
def sheetsParseQuery (dflt override : Option (List Char))
    (query : List Char) : Option ParsedQuery :=
  let lower := lowerl query
  let sid :=
    match scanSheetId query with
    | some c => some c
    | none => match override with
      | some o => some o
      | none => dflt
  match sid with
  | none => none
  | some spreadsheetId =>
    some
      { action :=
          if subStr lower (str "info") || subStr lower (str "details") then
            SheetAction.get_sheet_info
          else if subStr lower (str "range") || subStr lower (str "cells") then
            SheetAction.get_range
          else SheetAction.get_rows
        spreadsheetId := spreadsheetId
        sheetName := (scanSheetName query).map trimL
        limit := (scanLimit
          [str "first", str "last", str "top", str "limit", str "show"]
          query).getD 5
        offset := if subStr lower (str "last") then none else some 0
        requestedColumns := (scanColCap query).map (fun cap =>
          ((splitRuns cap).map trimL).filter (fun w => !w.isEmpty)) }

/- ----------------------------------------------------------------------
`GoogleSheetsService.getSheetData` (src/src/google-sheets.ts:153-291).
The network fetch, scope resolution and range computation are upstream I/O;
the embedded core is the pure row-processing part that receives the fetched
cell grid `values` (first row = header) and the query parameters.  JS
truthiness guards (`if (params.offset)`, `if (params.limit)`) skip the
slicing for both `undefined` and `0`.
---------------------------------------------------------------------- -/

/-- JS truthiness of an optional numeric parameter. -/
def truthyN : Option Nat → Bool
  | some n => !(n == 0)
  | none => false

/-- Case-insensitive substring containment in either direction
(src/src/google-sheets.ts:248-250): the fuzzy token/header match. -/
def fuzzyMatch (tok header : List Char) : Bool :=
  subStr (lowerl header) (lowerl tok) || subStr (lowerl tok) (lowerl header)

/-- The selected (index, header) pairs: each requested token contributes the
first header it fuzzily matches (`findIndex`), in token order; unmatched
tokens are dropped (src/src/google-sheets.ts:244-256). -/
def selectCols (headers cols : List (List Char)) : List (Nat × List Char) :=
  cols.filterMap (fun c => findMatchC (fun h => fuzzyMatch c h) headers)

/-- The output of the embedded core: the fields actually returned, the
records, and `totalRows` (the dataset's `totalMatched`). -/
structure SheetCoreOut where
  headers : List (List Char)
  rows : List (List (List Char × List Char))
  totalRows : Nat
deriving DecidableEq, Repr

/-- The row-processing core of `getSheetData`: slice by offset then limit,
select columns when a nonempty `requestedColumns` is present, then zip the
(selected) headers with each row's cells, missing cells defaulting to the
empty string (`row[index] || ''`).  `totalRows` is `dataRows.length`,
computed before any slicing. -/
def getSheetDataCore (values : List (List (List Char)))
    (limit offset : Option Nat) (requestedColumns : Option (List (List Char))) :
    SheetCoreOut :=
  if values.isEmpty then ⟨[], [], 0⟩
  else
    let headers := values.headI
    let dataRows := values.tail
    let afterOffset :=
      if truthyN offset then dataRows.drop (offset.getD 0) else dataRows
    let processed :=
      if truthyN limit then afterOffset.take (limit.getD 0) else afterOffset
    let sel :=
      match requestedColumns with
      | some cols =>
        if 0 < cols.length then selectCols headers cols
        else headers.enum
      | none => headers.enum
    { headers := sel.map (fun ih => ih.2)
      rows := processed.map (fun row =>
        sel.map (fun ih => (ih.2, (row.get? ih.1).getD [])))
      totalRows := dataRows.length }

/- ----------------------------------------------------------------------
Verbal formatters: `GoogleSheetsService.formatForVerbalResponse`
(src/src/google-sheets.ts:296-328) and
`QuickBooksService.formatForVerbalResponse` (src/src/quickbooks.ts:381-421).
---------------------------------------------------------------------- -/

/-- `list.join(sep)`. -/
def joinSep (sep : List Char) : List (List Char) → List Char
  | [] => []
  | [x] => x
  | x :: y :: t => x ++ sep ++ joinSep sep (y :: t)

/-- `row[header]` on a record; JS renders a missing property as
`undefined`. -/
def lookupField (r : List (List Char × List Char)) (h : List Char) :
    List Char :=
  match r.find? (fun p => p.1 == h) with
  | some p => p.2
  | none => str "undefined"

/-- The dataset fields the sheets formatter consumes (`SheetData` of the
source restricted to them): scope name, fields, records, `totalRows` and
`queryInfo.limit`. -/
structure SheetDataM where
  sheetName : List Char
  headers : List (List Char)
  rows : List (List (List Char × List Char))
  totalRows : Nat
  limitInfo : Option Nat
deriving Repr

/-- One `Row ${i+1}: h1: v1, h2: v2` line (0-based `i`), newline-terminated. -/
def renderSheetRow (headers : List (List Char)) (i : Nat)
    (r : List (List Char × List Char)) : List Char :=
  str "Row " ++ natChars (i + 1) ++ str ": " ++
    joinSep (str ", ") (headers.map (fun h => h ++ str ": " ++ lookupField r h))
    ++ str "\n"

/-- The per-record lines the sheets formatter emits: the loop runs for
`displayLimit = Math.min(rows.length, 10)` iterations. -/
def sheetRowLines (d : SheetDataM) : List (List Char) :=
  ((d.rows.take (min d.rows.length 10)).enum).map
    (fun p => renderSheetRow d.headers p.1 p.2)

/-- The `... and N more rows.` trailer, emitted when
`rows.length > displayLimit`. -/
def sheetMoreTrailer (d : SheetDataM) : List Char :=
  if min d.rows.length 10 < d.rows.length then
    str "\n... and " ++ natChars (d.rows.length - min d.rows.length 10) ++
      str " more rows."
  else []

/-- `GoogleSheetsService.formatForVerbalResponse`. -/
def formatSheetsVerbal (d : SheetDataM) : List Char :=
  if d.rows.isEmpty then
    str "I found the sheet \"" ++ d.sheetName ++
      str "\" but it appears to be empty or has no data in the requested range."
  else
    trimL
      (str "I found " ++ natChars d.rows.length ++ str " row" ++
        (if d.rows.length != 1 then str "s" else []) ++
        str " from the \"" ++ d.sheetName ++ str "\" sheet" ++
        (if truthyN d.limitInfo && decide (d.limitInfo.getD 0 < d.totalRows)
          then
            str " (showing first " ++ natChars (d.limitInfo.getD 0) ++
              str " of " ++ natChars d.totalRows ++ str " total rows)"
          else []) ++
        str ". Here\x27s the data:\n\n" ++
        str "Columns: " ++ joinSep (str ", ") d.headers ++ str "\n\n" ++
        (sheetRowLines d).flatten ++ sheetMoreTrailer d)

/-- The invoice fields the QuickBooks formatter consumes
(`QuickBooksInvoice` of the source restricted to them); monetary fields in
cents, `firstItemName` present when `line[0].salesItemLineDetail` exists. -/
structure QBInvoiceM where
  docNumber : List Char
  customerName : List Char
  txnDate : List Char
  totalAmtC : Nat
  balanceC : Nat
  firstItemName : Option (List Char)
deriving Repr

/-- The response fields the QuickBooks formatter consumes
(`QuickBooksResponse` restricted to them). -/
structure QBRespM where
  invoices : List QBInvoiceM
  totalCount : Nat
  qiDateRange : Option DateRange
  qiAmountRange : Option (Nat × Nat)
deriving Repr

/-- `n.toFixed(2)` for a cents value. -/
def fixed2 (c : Nat) : List Char :=
  natChars (c / 100) ++ '.' :: pad2 (c % 100)

/-- JS number-to-string for a cents value parsed from `\d+(\.\d{2})?`
(trailing zeros of the fraction are not printed). -/
def centsChars (c : Nat) : List Char :=
  if c % 100 == 0 then natChars (c / 100)
  else if c % 10 == 0 then natChars (c / 100) ++ '.' :: natChars (c % 100 / 10)
  else natChars (c / 100) ++ '.' :: pad2 (c % 100)

/-- One invoice block of the QuickBooks formatter (0-based `i`): doc number,
customer, date, amount, balance, optional first item, blank line. -/
def renderInvoice (i : Nat) (inv : QBInvoiceM) : List Char :=
  str "Invoice " ++ natChars (i + 1) ++ str ": " ++ inv.docNumber ++
    str "\n  Customer: " ++ inv.customerName ++
    str "\n  Date: " ++ inv.txnDate ++
    str "\n  Amount: $" ++ fixed2 inv.totalAmtC ++
    str "\n  Balance: $" ++ fixed2 inv.balanceC ++ str "\n" ++
    (match inv.firstItemName with
     | some n => str "  Item: " ++ n ++ str "\n"
     | none => []) ++ str "\n"

/-- The per-record blocks the QuickBooks formatter emits: one for every
invoice (`invoices.forEach`), with no display cap. -/
def qbInvoiceLines (q : QBRespM) : List (List Char) :=
  q.invoices.enum.map (fun p => renderInvoice p.1 p.2)

/-- `QuickBooksService.formatForVerbalResponse`. -/
def formatQBVerbal (q : QBRespM) : List Char :=
  if q.invoices.isEmpty then
    str "I didn\x27t find any invoices" ++
      (match q.qiDateRange with
       | some r => str " between " ++ r.start ++ str " and " ++ r.endd
       | none => []) ++
      (match q.qiAmountRange with
       | some a => str " with amounts between $" ++ centsChars a.1 ++
           str " and $" ++ centsChars a.2
       | none => []) ++ str "."
  else
    trimL
      (str "I found " ++ natChars q.totalCount ++ str " invoice" ++
        (if q.totalCount != 1 then str "s" else []) ++
        (match q.qiDateRange with
         | some r => str " from " ++ r.start ++ str " to " ++ r.endd
         | none => []) ++
        (match q.qiAmountRange with
         | some a => str " with amounts between $" ++ centsChars a.1 ++
             str " and $" ++ centsChars a.2
         | none => []) ++
        str ". Here are the details:\n\n" ++ (qbInvoiceLines q).flatten)

/- ----------------------------------------------------------------------
Cache layer: `withCache` (src/src/cache.ts:51-68, the in-process variant;
the claims cite these lines).  The module-level `memoryCache` map is passed
explicitly; `Date.now()` is the `now` argument in milliseconds.  The cache
key is the string `fn.name + ':' + JSON.stringify(args)`; the serializer is
an explicit parameter standing for `JSON.stringify`. -/

/-- The shared `memoryCache`: key, `expires` timestamp (ms), value. -/
def CacheStore (β : Type) : Type := List (List Char × Nat × β)

/-- `memoryCache.get key`. -/
def cacheGet {β : Type} (st : CacheStore β) (key : List Char) :
    Option (Nat × β) :=
  match st.find? (fun e => e.1 == key) with
  | some e => some e.2
  | none => none

/-- `memoryCache.set key entry` (replace an existing binding). -/
def cacheSet {β : Type} (st : CacheStore β) (key : List Char) (exp : Nat)
    (v : β) : CacheStore β :=
  match st with
  | [] => [(key, exp, v)]
  | e :: t =>
    if e.1 == key then (key, exp, v) :: t else e :: cacheSet t key exp v

/-- The cache key (src/src/cache.ts:54): the function's `name` property,
a colon, and the serialized argument tuple. -/
def cacheKey (fname ser : List Char) : List Char := fname ++ ':' :: ser

/-- One call of the wrapper returned by `withCache fn ttlSeconds`
(src/src/cache.ts:53-64): look the key up; a hit with `expires > now` is
returned without invoking `fn`; otherwise `fn` runs and the result is
stored with `expires = now + ttlSeconds * 1000`.  Returns the value, the
new store and whether `fn` was invoked. -/
def withCacheCall {α β : Type} (fname : List Char) (ser : α → List Char)
    (fn : α → β) (ttlSeconds : Nat) (now : Nat) (st : CacheStore β)
    (args : α) : β × CacheStore β × Bool :=
  let key := cacheKey fname (ser args)
  match cacheGet st key with
  | some (exp, v) =>
    if now < exp then (v, st, false)
    else
      let result := fn args
      (result, cacheSet st key (now + ttlSeconds * 1000) result, true)
  | none =>
    let result := fn args
    (result, cacheSet st key (now + ttlSeconds * 1000) result, true)

/- ----------------------------------------------------------------------
Tool dispatcher: `MCPServer` (src/src/mcp-server.ts and the refactored
src/unnamed/part_003, which agree on everything the claims touch).  The
handlers' awaited service work (sheet fetch, invoice search, plugin run) is
I/O and is supplied as abstract outcome functions; the envelope logic
(routing, validation codes, id echoing) is embedded from the source.
---------------------------------------------------------------------- -/

/-- A JSON-RPC correlation id (`string | number`). -/
inductive ReqId
  | s (v : List Char)
  | n (v : Int)
deriving DecidableEq, Repr

/-- The `arguments` object fields the dispatcher itself inspects. -/
structure ToolArgs where
  query : Option (List Char)
  spreadsheetId : Option (List Char)
deriving DecidableEq, Repr

/-- `request.params`. -/
structure ReqParams where
  name : Option (List Char)
  arguments : Option ToolArgs
deriving DecidableEq, Repr

/-- `MCPRequest`. -/
structure MCPReq where
  method : List Char
  params : Option ReqParams
  id : Option ReqId
deriving DecidableEq, Repr

/-- `error` member of a response. -/
structure MCPErr where
  code : Int
  message : List Char
deriving DecidableEq, Repr

/-- `result` member of a response: the fixed `initialize` capability
descriptor, the registered-tool listing, or a tool payload `π`. -/
inductive MCPResult (π : Type)
  | initInfo
  | toolsList (names : List (List Char))
  | payload (p : π)
deriving DecidableEq, Repr

/-- `MCPResponse`. -/
structure MCPResp (π : Type) where
  result : Option (MCPResult π)
  error : Option MCPErr
  id : Option ReqId
deriving DecidableEq, Repr

/-- The dispatcher model: whether QuickBooks credentials produced a
service (`this.quickBooks` non-null), and the outcome of each handler's
awaited service work (`Except` = thrown error / returned data). -/
structure ServerM (π : Type) where
  qbConfigured : Bool
  pluginRun : Option ToolArgs → Except (List Char) π
  sheetInfoFetch : List Char → Except (List Char) π
  qbFetch : List Char → Except (List Char) π

/-- `createErrorResponse` (src/src/mcp-server.ts:363-371). -/
def mkErrResp {π : Type} (code : Int) (message : List Char)
    (id : Option ReqId) : MCPResp π :=
  { result := none, error := some ⟨code, message⟩, id := id }

/-- The registered tool names (`initializeTools`): the sheets query tool and
the sheet-info tool always, the QuickBooks tool only when the service was
configured. -/
def registeredTools {π : Type} (srv : ServerM π) : List (List Char) :=
  [str "query_google_sheets", str "get_sheet_info"] ++
    (if srv.qbConfigured then [str "search_quickbooks_invoices"] else [])

/-- `handleSheetInfo` (part_003:184-213): missing `spreadsheetId` is invalid
params (-32602); a thrown fetch error maps to -32603; both echo the id. -/
def handleSheetInfo {π : Type} (srv : ServerM π) (args : Option ToolArgs)
    (id : Option ReqId) : MCPResp π :=
  match (args.getD ⟨none, none⟩).spreadsheetId with
  | none => mkErrResp (-32602) (str "Spreadsheet ID is required") id
  | some sid =>
    match srv.sheetInfoFetch sid with
    | Except.ok p => { result := some (MCPResult.payload p), error := none, id := id }
    | Except.error m =>
      mkErrResp (-32603) (str "Failed to get sheet info: " ++ m) id

/-- `handleQuickBooksQuery` (part_003:215-268): an unconfigured service is
-32601, a missing `query` is -32602, a thrown search error is -32603; all
echo the id. -/
def handleQBQuery {π : Type} (srv : ServerM π) (args : Option ToolArgs)
    (id : Option ReqId) : MCPResp π :=
  if !srv.qbConfigured then
    mkErrResp (-32601)
      (str "QuickBooks service is not configured. Please provide QuickBooks credentials.") id
  else
    match (args.getD ⟨none, none⟩).query with
    | none => mkErrResp (-32602) (str "Query parameter is required") id
    | some q =>
      match srv.qbFetch q with
      | Except.ok p => { result := some (MCPResult.payload p), error := none, id := id }
      | Except.error m =>
        mkErrResp (-32603) (str "Failed to query QuickBooks: " ++ m) id

/-- `handleToolCall` (part_003:160-182; mcp-server.ts:158-178 routes the
same three names): the plugin list holds exactly the sheets query plugin;
a plugin throw maps to -32603; then the built-in switch; an unknown name
falls to the -32602 `Unknown tool` response.  All paths echo `request.id`. -/
def handleToolCall {π : Type} (srv : ServerM π) (req : MCPReq) : MCPResp π :=
  let p := req.params.getD ⟨none, none⟩
  if p.name == some (str "query_google_sheets") then
    match srv.pluginRun p.arguments with
    | Except.ok r => { result := some (MCPResult.payload r), error := none, id := req.id }
    | Except.error m => mkErrResp (-32603) (str "Plugin error: " ++ m) req.id
  else if p.name == some (str "get_sheet_info") then
    handleSheetInfo srv p.arguments req.id
  else if p.name == some (str "search_quickbooks_invoices") then
    handleQBQuery srv p.arguments req.id
  else
    mkErrResp (-32602) (str "Unknown tool: " ++
      (match p.name with | some nm => nm | none => str "undefined")) req.id

/-- `handleInitialize` (part_003:136-150): a fixed capability descriptor
with no `id` member on the response. -/
def handleInit {π : Type} : MCPResp π :=
  { result := some MCPResult.initInfo, error := none, id := none }

/-- `handleListTools` (part_003:152-158): the registered descriptors, again
with no `id` member. -/
def handleListTools {π : Type} (srv : ServerM π) : MCPResp π :=
  { result := some (MCPResult.toolsList (registeredTools srv)), error := none,
    id := none }

/-- `handleRequest` (part_003:108-134): method routing; an unknown method is
-32601 with the id echoed. -/
def handleRequest {π : Type} (srv : ServerM π) (req : MCPReq) : MCPResp π :=
  if req.method == str "initialize" then handleInit
  else if req.method == str "tools/list" then handleListTools srv
  else if req.method == str "tools/call" then handleToolCall srv req
  else
    mkErrResp (-32601)
      (str "Method \x27" ++ req.method ++ str "\x27 not found") req.id

/- ----------------------------------------------------------------------
Shared concrete instances for witnesses and counterexamples.
---------------------------------------------------------------------- -/

/-- A fully configured dispatcher with trivially succeeding service work. -/
def srvA : ServerM Nat :=
  ⟨true, fun _ => Except.ok 0, fun _ => Except.ok 0, fun _ => Except.ok 0⟩

/-- A dispatcher whose constructor received exactly one QuickBooks
credential, so `this.quickBooks` stayed undefined and the QuickBooks tool
was not registered. -/
def srvNoQB : ServerM Nat :=
  ⟨false, fun _ => Except.ok 0, fun _ => Except.ok 0, fun _ => Except.ok 0⟩

/-- A `tools/call` request for the unregistered QuickBooks tool. -/
def reqSqi : MCPReq :=
  ⟨str "tools/call",
   some ⟨some (str "search_quickbooks_invoices"), none⟩, some (ReqId.n 7)⟩

/-- A `tools/call` request for a name no dispatcher path knows. -/
def reqFoo : MCPReq :=
  ⟨str "tools/call", some ⟨some (str "foo"), none⟩, some (ReqId.n 3)⟩

/-- An `initialize` request that supplies a correlation id. -/
def reqInit : MCPReq := ⟨str "initialize", none, some (ReqId.n 5)⟩

/-- C10: for every `initialize` and every `tools/list` request the success
response carries a `result`, no `error`, and no `id` member, even when the
request supplied a correlation id (only the `tools/call` paths echo the
id). -/
theorem initListNoId {π : Type} (srv : ServerM π) (req : MCPReq)
    (h : req.method = str "initialize" ∨ req.method = str "tools/list") :
    (handleRequest srv req).id = none ∧
    (handleRequest srv req).error = none ∧
    (handleRequest srv req).result.isSome = true := by
  rcases h with h | h <;> refine ⟨?_, ?_, ?_⟩ <;>
    simp only [handleRequest, h] <;> rfl

/-- C10 witness: an `initialize` request carrying id 5 is answered with no
id member. -/
theorem initListNoId_w :
    reqInit.method = str "initialize" ∧
    (handleRequest srvA reqInit).id = none ∧
    (handleRequest srvA reqInit).error = none ∧
    (handleRequest srvA reqInit).result.isSome = true :=
  ⟨rfl, initListNoId srvA reqInit (Or.inl rfl)⟩

/-- C7 counterexample: on a dispatcher whose QuickBooks service is absent,
`search_quickbooks_invoices` is not a registered tool, yet calling it
returns error code -32601 (service not configured), not the claim's
-32602. -/
theorem unknownTool_code_false :
    (str "search_quickbooks_invoices" ∉ registeredTools srvNoQB) ∧
    (handleRequest srvNoQB reqSqi).error.map MCPErr.code = some (-32601) ∧
    (some (-32601 : Int)) ≠ some (-32602 : Int) := by
  refine ⟨by decide, rfl, by decide⟩

/-- C7 amended: for every `tools/call` request whose tool name is none of
the three names the dispatcher handles (`query_google_sheets`,
`get_sheet_info`, `search_quickbooks_invoices` — the last is handled even
when unregistered), the response is the -32602 unknown-tool error envelope
with the request id echoed and no result. -/
theorem unknownTool_amended {π : Type} (srv : ServerM π) (req : MCPReq)
    (hm : req.method = str "tools/call")
    (hn : (req.params.getD ⟨none, none⟩).name ∉
      [some (str "query_google_sheets"), some (str "get_sheet_info"),
       some (str "search_quickbooks_invoices")]) :
    (handleRequest srv req).error.map MCPErr.code = some (-32602) ∧
    (handleRequest srv req).id = req.id ∧
    (handleRequest srv req).result = none := by
  simp only [List.mem_cons, List.mem_singleton, not_or] at hn
  obtain ⟨h1, h2, h3⟩ := hn
  have e1 : ((req.params.getD ⟨none, none⟩).name ==
      some (str "query_google_sheets")) = false := beq_eq_false_iff_ne.mpr h1
  have e2 : ((req.params.getD ⟨none, none⟩).name ==
      some (str "get_sheet_info")) = false := beq_eq_false_iff_ne.mpr h2
  have e3 : ((req.params.getD ⟨none, none⟩).name ==
      some (str "search_quickbooks_invoices")) = false :=
    beq_eq_false_iff_ne.mpr h3.1
  refine ⟨?_, ?_, ?_⟩ <;>
    simp only [handleRequest, hm, handleToolCall, e1, e2, e3] <;> rfl

/-- C7 amended witness: calling the unknown tool `foo` with id 3 yields the
-32602 envelope echoing id 3. -/
theorem unknownTool_amended_w :
    reqFoo.method = str "tools/call" ∧
    (handleRequest srvA reqFoo).error.map MCPErr.code = some (-32602) ∧
    (handleRequest srvA reqFoo).id = reqFoo.id ∧
    (handleRequest srvA reqFoo).result = none :=
  ⟨rfl, unknownTool_amended srvA reqFoo rfl (by decide)⟩

/-- Looking up the key just stored finds the stored entry. -/
theorem cacheGet_cacheSet_self {β : Type} (st : CacheStore β)
    (key : List Char) (exp : Nat) (v : β) :
    cacheGet (cacheSet st key exp v) key = some (exp, v) := by
  induction st with
  | nil => simp [cacheSet, cacheGet, List.find?]
  | cons e t ih =>
    by_cases he : e.1 = key
    · simp [cacheSet, cacheGet, List.find?, he]
    · have hb : (e.1 == key) = false := beq_eq_false_iff_ne.mpr he
      simp only [cacheSet, hb, Bool.false_eq_true, if_false]
      simpa [cacheGet, List.find?, hb] using ih

/-- C4: the memoized wrapper's TTL discipline.  First, two sequential calls
with identical arguments within the TTL invoke the underlying function at
most once.  Second, starting with the key absent: the first call invokes
`fn`; a second call within the TTL returns the stored value without
invoking; a call at or past the stored expiry invokes `fn` again.  Third,
any call that does not invoke `fn` returned an entry with `now < expires` —
an expired entry is treated as absent and its stale value is never
served. -/
theorem withCache_ttl_spec {α β : Type} (fname : List Char)
    (ser : α → List Char) (fn : α → β) (ttl t0 t1 : Nat) (st : CacheStore β)
    (args : α) (h01 : t0 ≤ t1) (h1 : t1 < t0 + ttl * 1000) :
    (¬((withCacheCall fname ser fn ttl t0 st args).2.2 = true ∧
       (withCacheCall fname ser fn ttl t1
         (withCacheCall fname ser fn ttl t0 st args).2.1 args).2.2 = true)) ∧
    (cacheGet st (cacheKey fname (ser args)) = none →
      (withCacheCall fname ser fn ttl t0 st args).2.2 = true ∧
      (withCacheCall fname ser fn ttl t0 st args).1 = fn args ∧
      (withCacheCall fname ser fn ttl t1
        (withCacheCall fname ser fn ttl t0 st args).2.1 args).1 = fn args ∧
      (withCacheCall fname ser fn ttl t1
        (withCacheCall fname ser fn ttl t0 st args).2.1 args).2.2 = false ∧
      (∀ t2, t0 + ttl * 1000 ≤ t2 →
        (withCacheCall fname ser fn ttl t2
          (withCacheCall fname ser fn ttl t0 st args).2.1 args).2.2 = true)) ∧
    (∀ t (st' : CacheStore β),
      (withCacheCall fname ser fn ttl t st' args).2.2 = false →
      ∃ exp, cacheGet st' (cacheKey fname (ser args)) =
          some (exp, (withCacheCall fname ser fn ttl t st' args).1) ∧
        t < exp) := by
  refine ⟨?_, ?_, ?_⟩
  · match hg : cacheGet st (cacheKey fname (ser args)) with
    | none =>
      simp only [withCacheCall, hg, cacheGet_cacheSet_self]
      intro hcontra
      have := hcontra.2
      simp only [if_pos h1] at this
      · exact absurd this (by simp)
    | some (exp, v) =>
      by_cases hlt : t0 < exp
      · simp [withCacheCall, hg, hlt]
      · simp only [withCacheCall, hg, if_neg hlt, cacheGet_cacheSet_self,
          if_pos h1]
        intro hcontra
        exact absurd hcontra.2 (by simp)
  · intro hg
    refine ⟨?_, ?_, ?_, ?_, ?_⟩
    · simp [withCacheCall, hg]
    · simp [withCacheCall, hg]
    · simp [withCacheCall, hg, cacheGet_cacheSet_self, if_pos h1]
    · simp [withCacheCall, hg, cacheGet_cacheSet_self, if_pos h1]
    · intro t2 ht2
      have hn : ¬ t2 < t0 + ttl * 1000 := by omega
      simp [withCacheCall, hg, cacheGet_cacheSet_self, hn]
  · intro t st' hb
    match hg : cacheGet st' (cacheKey fname (ser args)) with
    | none => simp [withCacheCall, hg] at hb
    | some (exp, v) =>
      by_cases hlt : t < exp
      · refine ⟨exp, ?_, hlt⟩
        simp [withCacheCall, hg, hlt]
      · simp [withCacheCall, hg, hlt] at hb

/-- C4 witness: with a 5-second TTL, a fresh call at t=0 invokes, the call
at t=4000 is served from the cache with the same value, and a call at
t=5000 invokes again. -/
theorem withCache_ttl_spec_w :
    ((0 : Nat) ≤ 4000 ∧ (4000 : Nat) < 0 + 5 * 1000) ∧
    (¬((withCacheCall (str "f") natChars (fun n => n + 1) 5 0 [] 3).2.2 = true ∧
       (withCacheCall (str "f") natChars (fun n => n + 1) 5 4000
         (withCacheCall (str "f") natChars (fun n => n + 1) 5 0 [] 3).2.1
         3).2.2 = true)) := by
  refine ⟨⟨by decide, by decide⟩, ?_⟩
  exact (withCache_ttl_spec (str "f") natChars (fun n => n + 1) 5 0 4000 [] 3
    (by decide) (by decide)).1

/-- Keys built from colon-free names determine the name: the name is the
segment before the first colon. -/
theorem cacheKey_inj_name (n1 n2 s1 s2 : List Char)
    (hc1 : ':' ∉ n1) (hc2 : ':' ∉ n2)
    (h : cacheKey n1 s1 = cacheKey n2 s2) : n1 = n2 ∧ s1 = s2 := by
  induction n1 generalizing n2 with
  | nil =>
    cases n2 with
    | nil => simpa [cacheKey] using h
    | cons c t =>
      simp only [cacheKey, List.nil_append, List.cons_append,
        List.cons.injEq] at h
      exact absurd (h.1 ▸ List.mem_cons_self c t) hc2
  | cons c t ih =>
    cases n2 with
    | nil =>
      simp only [cacheKey, List.nil_append, List.cons_append,
        List.cons.injEq] at h
      exact absurd (h.1 ▸ List.mem_cons_self c t) hc1
    | cons c2 t2 =>
      simp only [cacheKey, List.cons_append, List.cons.injEq] at h
      have ht : t ++ ':' :: s1 = t2 ++ ':' :: s2 := h.2
      have := ih t2 (fun hm => hc1 (List.mem_cons_of_mem c hm))
        (fun hm => hc2 (List.mem_cons_of_mem c2 hm)) ht
      exact ⟨by simp [h.1, this.1], this.2⟩

/-- C9 counterexample: the key uses `fn.name`, not function identity.  Two
distinct functions that share the name `getData` (as two bound copies of
the same method do) collide: after the first wrapper caches `fA 3 = 1`, the
second wrapper called with the same argument returns 1, not its own
function's value `gA 3 = 2`. -/
theorem cacheKey_identity_false :
    (withCacheCall (str "getData") natChars (fun _ => 2) 300 1000
      (withCacheCall (str "getData") natChars (fun _ => 1) 300 0
        ([] : CacheStore Nat) 3).2.1 3).1 = 1 ∧
    ((fun _ => 2) : Nat → Nat) 3 = 2 ∧ (1 : Nat) ≠ 2 := by
  refine ⟨rfl, rfl, by decide⟩

/-- C9 amended: the key is a deterministic function of `fn.name` and the
serialized argument tuple (it is literally their concatenation), and
wrappers of underlying functions with distinct (colon-free, as JS
identifiers are) names never share entries: after any call of the first
wrapper from an empty store, a call of the second wrapper invokes its own
function and returns that function's value. -/
theorem cacheKey_amended {α β : Type} (n1 n2 : List Char)
    (ser : α → List Char) (fn gn : α → β) (ttl t0 t1 : Nat) (a b : α)
    (hc1 : ':' ∉ n1) (hc2 : ':' ∉ n2) (hne : n1 ≠ n2) :
    (∀ s1 s2 : List Char, cacheKey n1 s1 ≠ cacheKey n2 s2) ∧
    (withCacheCall n2 ser gn ttl t1
      (withCacheCall n1 ser fn ttl t0 [] a).2.1 b).1 = gn b ∧
    (withCacheCall n2 ser gn ttl t1
      (withCacheCall n1 ser fn ttl t0 [] a).2.1 b).2.2 = true := by
  have hkey : ∀ s1 s2 : List Char, cacheKey n1 s1 ≠ cacheKey n2 s2 := by
    intro s1 s2 h
    exact hne (cacheKey_inj_name n1 n2 s1 s2 hc1 hc2 h).1
  refine ⟨hkey, ?_, ?_⟩ <;>
  · have hb : (cacheKey n1 (ser a) == cacheKey n2 (ser b)) = false :=
      beq_eq_false_iff_ne.mpr (hkey (ser a) (ser b))
    simp [withCacheCall, cacheGet, cacheSet, List.find?, hb]

/-- C9 amended witness: wrappers named `f` and `g` with serialized argument
`3` use distinct keys and do not read each other's entries. -/
theorem cacheKey_amended_w :
    ((':' ∉ str "f") ∧ (':' ∉ str "g") ∧ str "f" ≠ str "g") ∧
    (withCacheCall (str "g") natChars (fun n => n + 7) 300 10
      (withCacheCall (str "f") natChars (fun n => n + 1) 300 0
        ([] : CacheStore Nat) 3).2.1 3).1 = (fun n => n + 7) 3 := by
  refine ⟨⟨by decide, by decide, by decide⟩, ?_⟩
  exact (cacheKey_amended (str "f") (str "g") natChars (fun n => n + 1)
    (fun n => n + 7) 300 0 10 3 3 (by decide) (by decide) (by decide)).2.1


/-- A first-match result satisfies the predicate and is a list element. -/
theorem findMatchC_spec {α : Type} {p : α → Bool} :
    ∀ {l : List α} {i : Nat} {a : α},
      findMatchC p l = some (i, a) → p a = true ∧ a ∈ l
  | [], i, a, h => by simp [findMatchC] at h
  | x :: t, i, a, h => by
    by_cases hx : p x
    · simp only [findMatchC, hx, if_pos, Option.some.injEq,
        Prod.mk.injEq] at h
      exact ⟨h.2 ▸ hx, h.2 ▸ List.mem_cons_self x t⟩
    · simp only [findMatchC, hx, Bool.false_eq_true, if_false] at h
      match hm : findMatchC p t with
      | some (j, b) => ?_
      | none => ?_
      · rw [hm] at h
        simp only [Option.some.injEq, Prod.mk.injEq] at h
        have := findMatchC_spec hm
        exact ⟨h.2 ▸ this.1, h.2 ▸ List.mem_cons_of_mem x this.2⟩
      · rw [hm] at h; simp at h

/-- If nothing satisfies the predicate the first-match search fails. -/
theorem findMatchC_none {α : Type} {p : α → Bool} {l : List α}
    (h : ∀ a ∈ l, p a = false) : findMatchC p l = none := by
  induction l with
  | nil => rfl
  | cons x t ih =>
    have hx := h x (List.mem_cons_self x t)
    simp only [findMatchC, hx, Bool.false_eq_true, if_false]
    rw [ih (fun a ha => h a (List.mem_cons_of_mem x ha))]

/-- Taking after dropping never yields more elements than the original. -/
theorem lenTakeDrop {α : Type} (l : List α) (a b : Nat) :
    ((l.drop a).take b).length ≤ l.length := by
  rw [List.length_take, List.length_drop]
  exact (Nat.min_le_right _ _).trans (Nat.sub_le _ _)

/-- C5 counterexample: with one header row, three data rows and offset 2,
the code reports `totalRows = 3` — the count of all data rows — while the
claimed post-offset count is 1. -/
theorem totalRows_postoffset_false :
    (getSheetDataCore [[str "H"], [str "a"], [str "b"], [str "c"]]
      (some 10) (some 2) none).totalRows = 3 ∧
    (([[str "a"], [str "b"], [str "c"]].drop 2).length = 1) ∧
    (3 : Nat) ≠ 1 := by
  refine ⟨rfl, rfl, by decide⟩

/-- C5 amended: the dataset's `totalRows` equals the number of data rows
before the offset and the limit are applied (pre-offset, pre-limit), and is
therefore still always at least the number of returned records. -/
theorem totalRows_amended (values : List (List (List Char)))
    (limit offset : Option Nat) (cols : Option (List (List Char))) :
    (getSheetDataCore values limit offset cols).totalRows =
      values.tail.length ∧
    (getSheetDataCore values limit offset cols).rows.length ≤
      (getSheetDataCore values limit offset cols).totalRows := by
  by_cases hv : values.isEmpty
  · have : values = [] := List.isEmpty_iff.mp hv
    subst this
    exact ⟨rfl, Nat.le_refl 0⟩
  · constructor
    · simp [getSheetDataCore, hv]
    · simp only [getSheetDataCore, hv, Bool.false_eq_true, if_false,
        List.length_map]
      split
      · split
        · exact lenTakeDrop _ _ _
        · rw [List.length_take]
          exact Nat.min_le_right _ _
      · split
        · rw [List.length_drop]; exact Nat.sub_le _ _
        · exact Nat.le_refl _

/-- C2 counterexample: requesting the single field `zzz`, which matches no
header of `Name`/`Age`, does not disable the filter: the returned headers
are empty and the lone record carries no fields at all, instead of the
claimed full original fields (fail closed, not open). -/
theorem fieldFilter_failopen_false :
    (getSheetDataCore [[str "Name", str "Age"], [str "Alice", str "30"]]
      none none (some [str "zzz"])).headers = [] ∧
    (getSheetDataCore [[str "Name", str "Age"], [str "Alice", str "30"]]
      none none (some [str "zzz"])).rows = [[]] ∧
    ([[]] : List (List (List Char × List Char))) ≠
      [[(str "Name", str "Alice"), (str "Age", str "30")]] := by
  refine ⟨rfl, rfl, by decide⟩

/-- C2 amended: with a nonempty requested-field list, every returned field
is the bidirectional case-insensitive substring match of some requested
token (unmatched tokens are silently dropped, the fetch never errors); but
when no token matches any header the filter still applies and strips every
field: the headers come back empty and every returned record carries no
fields (fail closed, not fail open). -/
theorem fieldFilter_amended (values : List (List (List Char)))
    (limit offset : Option Nat) (cols : List (List Char)) (hne : cols ≠ []) :
    (∀ h ∈ (getSheetDataCore values limit offset (some cols)).headers,
      ∃ c ∈ cols, fuzzyMatch c h = true) ∧
    ((∀ c ∈ cols, ∀ hd ∈ values.headI, fuzzyMatch c hd = false) →
      (getSheetDataCore values limit offset (some cols)).headers = [] ∧
      ∀ r ∈ (getSheetDataCore values limit offset (some cols)).rows,
        r = []) := by
  have hlen : 0 < cols.length := List.length_pos.mpr hne
  by_cases hv : values.isEmpty
  · refine ⟨?_, fun _ => ⟨?_, ?_⟩⟩
    · intro h hh; simp [getSheetDataCore, hv] at hh
    · simp [getSheetDataCore, hv]
    · intro r hr; simp [getSheetDataCore, hv] at hr
  · constructor
    · intro h hh
      simp only [getSheetDataCore, hv, Bool.false_eq_true, if_false,
        if_pos hlen, List.mem_map] at hh
      obtain ⟨pair, hpair, hph⟩ := hh
      rw [selectCols, List.mem_filterMap] at hpair
      obtain ⟨c, hc, hfm⟩ := hpair
      have := findMatchC_spec hfm
      exact ⟨c, hc, hph ▸ this.1⟩
    · intro hall
      have hsel : selectCols values.headI cols = [] := by
        rw [selectCols]
        apply List.filterMap_eq_nil_iff.mpr
        intro c hc
        exact findMatchC_none (fun hd hhd => hall c hc hd hhd)
      constructor
      · simp [getSheetDataCore, hv, if_pos hlen, hsel]
      · intro r hr
        simp only [getSheetDataCore, hv, Bool.false_eq_true, if_false,
          if_pos hlen, hsel, List.mem_map] at hr
        obtain ⟨row, _, hrow⟩ := hr
        simpa using hrow.symm

/-- C2 amended witness: for the concrete two-column sheet and the token
list `[zzz]`, the hypothesis holds and every returned field (there are
none) matches some token. -/
theorem fieldFilter_amended_w :
    ([str "zzz"] ≠ ([] : List (List Char))) ∧
    (∀ h ∈ (getSheetDataCore
        [[str "Name", str "Age"], [str "Alice", str "30"]]
        none none (some [str "zzz"])).headers,
      ∃ c ∈ [str "zzz"], fuzzyMatch c h = true) :=
  ⟨by decide,
   (fieldFilter_amended [[str "Name", str "Age"], [str "Alice", str "30"]]
     none none [str "zzz"] (by decide)).1⟩

/-- A one-line invoice fixture. -/
def invA : QBInvoiceM := ⟨str "D1", str "Acme", str "2025-01-02", 100, 0, none⟩

/-- An invoice response with eleven records and no active filters. -/
def qb11 : QBRespM := ⟨List.replicate 11 invA, 11, none, none⟩

/-- A one-row sheet dataset fixture. -/
def sheetD1 : SheetDataM :=
  ⟨str "Sales", [str "Name"], [[(str "Name", str "Alice")]], 1, none⟩

set_option maxRecDepth 40000 in
/-- C8 counterexample: the invoice formatter has no display cap — for an
eleven-record dataset its verbal output still contains an eleventh
per-record line (`Invoice 11:`) and no `and N more` trailer (the word
`more` never occurs), so the claimed cap of 10 is not applied by both
formatters. -/
theorem verbalCap_both_false :
    subStr (formatQBVerbal qb11) (str "Invoice 11:") = true ∧
    subStr (formatQBVerbal qb11) (str "more") = false := by
  refine ⟨by decide, by decide⟩

/-- C8 amended: the display cap of 10 with the `... and N more rows.`
trailer belongs to the tabular formatter alone — it emits
`min(rows.length, 10)` per-record lines after the field-naming header line,
and the trailer exactly when more than 10 records are present, independent
of the query's limit; the invoice formatter instead renders one block per
invoice with no cap and no trailer. -/
theorem verbalCap_amended (d : SheetDataM) (q : QBRespM) (hd : d.rows ≠ []) :
    (sheetRowLines d).length = min d.rows.length 10 ∧
    (sheetMoreTrailer d ≠ [] ↔ 10 < d.rows.length) ∧
    (qbInvoiceLines q).length = q.invoices.length := by
  refine ⟨?_, ?_, ?_⟩
  · simp [sheetRowLines, List.enum_length, List.length_take]
  · rw [sheetMoreTrailer]
    split
    · next hlt =>
      constructor
      · intro _; omega
      · intro _
        have hne2 : str "\n... and " ≠ ([] : List Char) := by decide
        intro hc
        rw [List.append_assoc, List.append_eq_nil] at hc
        exact hne2 hc.1
    · next hge =>
      have hn : ¬ 10 < d.rows.length := by omega
      simp [hn]
  · simp [qbInvoiceLines, List.enum_length]

/-- C8 amended witness: a one-row sheet dataset emits exactly one row line
(`min 1 10`). -/
theorem verbalCap_amended_w :
    (sheetD1.rows ≠ []) ∧
    (sheetRowLines sheetD1).length = min sheetD1.rows.length 10 :=
  ⟨by decide, (verbalCap_amended sheetD1 qb11 (by decide)).1⟩

/-- The Scenario B text. -/
def scB : List Char := str "Show me invoices over $1000 this month"

set_option maxRecDepth 40000 in
/-- C1 counterexample: on `Show me invoices over $1000 this month` the
parser's action is `get_invoice`, not the invoice search action — the text
contains `invoice` and the standalone number 1000, which trips the
single-invoice branch (src/src/quickbooks.ts:149). -/
theorem qb_scenarioB_claim_false :
    (qbParseQuery ⟨2025, 6, 15⟩ scB).action = QBAction.get_invoice ∧
    QBAction.get_invoice ≠ QBAction.search_invoices := by
  refine ⟨by decide, by decide⟩

set_option maxRecDepth 40000 in
/-- C1 amended: for every current date, `Show me invoices over $1000 this
month` parses to action `get_invoice` (the `invoice`-plus-number branch),
amount range min $1000 / max the 999999-dollar sentinel, date range from
the first of the current month to today, and the invoice default limit
10. -/
theorem qb_scenarioB_amended (now : SimpleDate) :
    qbParseQuery now scB =
      { action := QBAction.get_invoice,
        dateRange := some ⟨isoOf ⟨now.year, now.month, 1⟩, isoOf now⟩,
        amountRange := some (100000, 99999900),
        limit := 10 } := by
  rfl

/-- The Scenario A text. -/
def qA : List Char := str "Get first 5 rows from the Sales sheet"

set_option maxRecDepth 40000 in
/-- C6 counterexample: on `Get first 5 rows from the Sales sheet` with a
default source configured, the parsed intent's scope is `none`, not
`Sales`: the sheet-name pattern needs at least one character after the word
`sheet`/`tab`, and here `sheet` ends the text (the name precedes it). -/
theorem scenarioA_scope_false :
    ((sheetsParseQuery (some (str "D")) none qA).map
      ParsedQuery.sheetName) = some none ∧
    (some (none : Option (List Char))) ≠ some (some (str "Sales")) := by
  refine ⟨by decide, by decide⟩

set_option maxRecDepth 40000 in
/-- C6 amended: with any configured default source, `Get first 5 rows from
the Sales sheet` parses to the row-fetch action with limit 5 and the
default source, but with no scope (and offset 0, no field filter): the
scope pattern cannot capture a name written before the word `sheet`. -/
theorem scenarioA_amended (dflt : List Char) :
    sheetsParseQuery (some dflt) none qA =
      some { action := SheetAction.get_rows, spreadsheetId := dflt,
             sheetName := none, limit := 5, offset := some 0,
             requestedColumns := none } := by
  rfl

/- ----------------------------------------------------------------------
Lemmas for C3: the ISO scanner is insensitive to a digit-free prefix and
commits to an explicit `date to date` pair.
---------------------------------------------------------------------- -/

/-- Consuming a fixed digit count is stable under extending the text. -/
theorem matchDigitsCount_append {n : Nat} :
    ∀ {l d rest : List Char}, matchDigitsCount n l = some (d, rest) →
      ∀ r, matchDigitsCount n (l ++ r) = some (d, rest ++ r) := by
  induction n with
  | zero =>
    intro l d rest h r
    simp only [matchDigitsCount, Option.some.injEq, Prod.mk.injEq] at h
    simp [matchDigitsCount, h.1, h.2]
  | succ n ih =>
    intro l d rest h r
    cases l with
    | nil => simp [matchDigitsCount] at h
    | cons c t =>
      by_cases hc : dchar c
      · simp only [matchDigitsCount, hc, if_pos] at h ⊢
        cases hm : matchDigitsCount n t with
        | none => rw [hm] at h; simp at h
        | some p =>
          obtain ⟨p1, p2⟩ := p
          rw [hm] at h
          simp only [Option.some.injEq, Prod.mk.injEq] at h
          rw [List.append_eq, ih hm r]
          simp [← h.1, h.2]
      · simp [matchDigitsCount, hc] at h

/-- Consuming the dash is stable under extending the text. -/
theorem matchDash_append {l rest : List Char}
    (h : matchDash l = some rest) (r : List Char) :
    matchDash (l ++ r) = some (rest ++ r) := by
  cases l with
  | nil => simp [matchDash] at h
  | cons c t =>
    by_cases hc : c = '-'
    · subst hc
      simp only [matchDash, if_pos] at h ⊢
      simp only [Option.some.injEq] at h
      simp [List.cons_append, h]
    · simp [matchDash, hc] at h

/-- Consuming a leading ISO date is stable under extending the text. -/
theorem matchIsoDate_append {l d rest : List Char}
    (h : matchIsoDate l = some (d, rest)) (r : List Char) :
    matchIsoDate (l ++ r) = some (d, rest ++ r) := by
  unfold matchIsoDate at h ⊢
  cases h4 : matchDigitsCount 4 l with
  | none => rw [h4] at h; simp at h
  | some p4 =>
    obtain ⟨d4, r1⟩ := p4
    rw [h4] at h
    dsimp only at h
    rw [matchDigitsCount_append h4 r]
    dsimp only
    cases hd1 : matchDash r1 with
    | none => rw [hd1] at h; simp at h
    | some r2 =>
      rw [hd1] at h
      dsimp only at h
      rw [matchDash_append hd1 r]
      dsimp only
      cases h2 : matchDigitsCount 2 r2 with
      | none => rw [h2] at h; simp at h
      | some p2 =>
        obtain ⟨d2, r3⟩ := p2
        rw [h2] at h
        dsimp only at h
        rw [matchDigitsCount_append h2 r]
        dsimp only
        cases hd2 : matchDash r3 with
        | none => rw [hd2] at h; simp at h
        | some r4 =>
          rw [hd2] at h
          dsimp only at h
          rw [matchDash_append hd2 r]
          dsimp only
          cases h3 : matchDigitsCount 2 r4 with
          | none => rw [h3] at h; simp at h
          | some p3 =>
            obtain ⟨d2b, r5⟩ := p3
            rw [h3] at h
            dsimp only at h
            rw [matchDigitsCount_append h3 r]
            dsimp only
            simp only [Option.some.injEq, Prod.mk.injEq] at h ⊢
            exact ⟨h.1, by rw [← h.2]⟩

/-- A digit character is not whitespace. -/
theorem spc_of_dchar {c : Char} (h : dchar c = true) : spc c = false := by
  simp only [dchar, decide_eq_true_eq] at h
  simp only [spc, decide_eq_false_iff_not]
  omega

/-- An ISO-shaped text starts with a digit. -/
theorem isoShaped_head {s : List Char} (hs : isoShaped s = true) :
    ∃ c t, s = c :: t ∧ dchar c = true := by
  have h : matchIsoDate s = some (s, []) := by
    simpa [isoShaped] using hs
  cases s with
  | nil => simp [matchIsoDate, matchDigitsCount] at h
  | cons c t =>
    refine ⟨c, t, rfl, ?_⟩
    by_cases hc : dchar c
    · exact hc
    · exfalso
      have : matchDigitsCount 4 (c :: t) = none := by
        show matchDigitsCount (3 + 1) (c :: t) = none
        simp [matchDigitsCount, hc]
      simp [matchIsoDate, this] at h

/-- The scan of the query-parser ISO pattern skips a digit-free prefix. -/
theorem scanIso_append_skip {pre : List Char}
    (h : ∀ c ∈ pre, dchar c = false) (rest : List Char) :
    scanIso (pre ++ rest) = scanIso rest := by
  induction pre with
  | nil => simp
  | cons c t ih =>
    have hc := h c (List.mem_cons_self c t)
    have hnil : isoAt (c :: (t ++ rest)) = none := by
      have h4 : matchDigitsCount 4 (c :: (t ++ rest)) = none := by
        show matchDigitsCount (3 + 1) (c :: (t ++ rest)) = none
        simp [matchDigitsCount, hc]
      simp [isoAt, matchIsoDate, h4]
    rw [List.cons_append, scanIso, hnil]
    exact ih (fun a ha => h a (List.mem_cons_of_mem c ha))

/-- The scan of the QuickBooks pair pattern skips a digit-free prefix. -/
theorem scanIsoPair_append_skip {pre : List Char}
    (h : ∀ c ∈ pre, dchar c = false) (rest : List Char) :
    scanIsoPair (pre ++ rest) = scanIsoPair rest := by
  induction pre with
  | nil => simp
  | cons c t ih =>
    have hc := h c (List.mem_cons_self c t)
    have hnil : isoPairAt (c :: (t ++ rest)) = none := by
      have h4 : matchDigitsCount 4 (c :: (t ++ rest)) = none := by
        show matchDigitsCount (3 + 1) (c :: (t ++ rest)) = none
        simp [matchDigitsCount, hc]
      simp [isoPairAt, matchIsoDate, h4]
    rw [List.cons_append, scanIsoPair, hnil]
    exact ih (fun a ha => h a (List.mem_cons_of_mem c ha))

/-- After a leading date, ` to ` followed by an ISO-shaped date parses as
the separated second date. -/
theorem matchSepDate_to {e post : List Char} (he : isoShaped e = true) :
    matchSepDate (str " to " ++ (e ++ post)) = some (e, post) := by
  obtain ⟨c, t, he', hc⟩ := isoShaped_head he
  have hsp : spc c = false := spc_of_dchar hc
  have hme : matchIsoDate e = some (e, []) := by simpa [isoShaped] using he
  have hmep : matchIsoDate (e ++ post) = some (e, post) := by
    simpa using matchIsoDate_append hme post
  have h1 : skipSpaces (str " to " ++ (e ++ post)) =
      't' :: 'o' :: ' ' :: (e ++ post) := rfl
  have h2 : matchAlt sepAlts ('t' :: 'o' :: ' ' :: (e ++ post)) =
      some (' ' :: (e ++ post)) := rfl
  have h3 : skipSpaces (' ' :: (e ++ post)) = e ++ post := by
    subst he'
    simp [skipSpaces, hsp, show spc ' ' = true from rfl]
  simp only [matchSepDate, matchSepDateW, h1, h2, h3, hmep]

/-- At the position of an explicit `s to e` pair the query-parser pattern
captures exactly that pair. -/
theorem isoAt_pair {s e : List Char} (post : List Char)
    (hs : isoShaped s = true) (he : isoShaped e = true) :
    isoAt (s ++ (str " to " ++ (e ++ post))) = some (s, some e) := by
  have hms : matchIsoDate s = some (s, []) := by simpa [isoShaped] using hs
  have h1 : matchIsoDate (s ++ (str " to " ++ (e ++ post))) =
      some (s, str " to " ++ (e ++ post)) := by
    simpa using matchIsoDate_append hms (str " to " ++ (e ++ post))
  simp only [isoAt, h1, matchSepDate_to he]

/-- At the position of an explicit `s to e` pair the QuickBooks pattern
captures exactly that pair. -/
theorem isoPairAt_pair {s e : List Char} (post : List Char)
    (hs : isoShaped s = true) (he : isoShaped e = true) :
    isoPairAt (s ++ (str " to " ++ (e ++ post))) = some (s, e) := by
  have hms : matchIsoDate s = some (s, []) := by simpa [isoShaped] using hs
  have h1 : matchIsoDate (s ++ (str " to " ++ (e ++ post))) =
      some (s, str " to " ++ (e ++ post)) := by
    simpa using matchIsoDate_append hms (str " to " ++ (e ++ post))
  simp only [isoPairAt, h1, matchSepDate_to he]

/-- Full scan result of the query-parser ISO pattern on a digit-free
prefix followed by an explicit pair. -/
theorem scanIso_pair_full {pre s e post : List Char}
    (hpre : ∀ c ∈ pre, dchar c = false) (hs : isoShaped s = true)
    (he : isoShaped e = true) :
    scanIso (pre ++ (s ++ (str " to " ++ (e ++ post)))) =
      some (s, some e) := by
  rw [scanIso_append_skip hpre]
  have hpair := isoAt_pair post hs he
  obtain ⟨c, t, hs', hc⟩ := isoShaped_head hs
  subst hs'
  rw [List.cons_append] at hpair ⊢
  rw [scanIso, hpair]

/-- Full scan result of the QuickBooks pair pattern on a digit-free prefix
followed by an explicit pair. -/
theorem scanIsoPair_pair_full {pre s e post : List Char}
    (hpre : ∀ c ∈ pre, dchar c = false) (hs : isoShaped s = true)
    (he : isoShaped e = true) :
    scanIsoPair (pre ++ (s ++ (str " to " ++ (e ++ post)))) =
      some (s, e) := by
  rw [scanIsoPair_append_skip hpre]
  have hpair := isoPairAt_pair post hs he
  obtain ⟨c, t, hs', hc⟩ := isoShaped_head hs
  subst hs'
  rw [List.cons_append] at hpair ⊢
  rw [scanIsoPair, hpair]

set_option maxRecDepth 40000 in
/-- C3 counterexample: the text `today 2025-01-05 to 2025-02-06` contains
an explicit ISO date pair, yet the interpreter resolves the relative
keyword `today` first (strategy order of
`QueryParser.parseDateRange`) and returns the single-day range for the
current date, not the pair. -/
theorem iso_roundtrip_false :
    subStr (str "today 2025-01-05 to 2025-02-06")
      (str "2025-01-05 to 2025-02-06") = true ∧
    parseDateRange ⟨2025, 6, 15⟩ (str "today 2025-01-05 to 2025-02-06") =
      some ⟨str "2025-06-15", str "2025-06-15"⟩ ∧
    DateRange.mk (str "2025-06-15") (str "2025-06-15") ≠
      ⟨str "2025-01-05", str "2025-02-06"⟩ := by
  refine ⟨by decide, by decide, by decide⟩

/-- C3 amended: for every text of the form `pre ++ s ++ " to " ++ e ++ post`
with a digit-free prefix and ISO-shaped dates `s`, `e`:
`QueryParser.parseDateRange` resolves exactly `{start := s, end := e}`
provided no earlier strategy fires, i.e. under the additional condition
that the lowered text contains no relative-date keyword and no month name
(those strategies are tried first and win); the QuickBooks date
extraction, which tries the ISO pair pattern first, resolves the same
pair unconditionally — no keyword restriction beyond the shape of the
text. -/
theorem iso_roundtrip_amended (now : SimpleDate) (pre s e post : List Char)
    (hpre : ∀ c ∈ pre, dchar c = false)
    (hs : isoShaped s = true) (he : isoShaped e = true) :
    ((∀ k ∈ relKeys,
        subStr (lowerl (pre ++ (s ++ (str " to " ++ (e ++ post))))) k
          = false) →
      (∀ m ∈ monthNames,
        subStr (lowerl (pre ++ (s ++ (str " to " ++ (e ++ post))))) m
          = false) →
      parseDateRange now (pre ++ (s ++ (str " to " ++ (e ++ post)))) =
        some ⟨s, e⟩) ∧
    qbParseDate now (pre ++ (s ++ (str " to " ++ (e ++ post)))) =
      some ⟨s, e⟩ := by
  constructor
  · intro hrel hmon
    have r1 := hrel (str "today") (by decide)
    have r2 := hrel (str "yesterday") (by decide)
    have r3 := hrel (str "this week") (by decide)
    have r4 := hrel (str "last week") (by decide)
    have r5 := hrel (str "this month") (by decide)
    have r6 := hrel (str "last month") (by decide)
    have r7 := hrel (str "this year") (by decide)
    have m0 : findMatchC
        (fun m => subStr (lowerl (pre ++ (s ++ (str " to " ++ (e ++ post))))) m)
        monthNames = none :=
      findMatchC_none (fun m hm => hmon m hm)
    simp only [parseDateRange, r1, r2, r3, r4, r5, r6, r7,
      Bool.false_eq_true, if_false, m0, scanIso_pair_full hpre hs he]
  · simp only [qbParseDate, scanIsoPair_pair_full hpre hs he]

set_option maxRecDepth 40000 in
/-- C3 amended witness: `invoices 2025-01-05 to 2025-02-06!` round-trips to
exactly that pair in the query parser, and the QuickBooks extraction
resolves the pair even on the keyword-containing text
`today 2025-01-05 to 2025-02-06!`, where the keyword restriction does not
apply. -/
theorem iso_roundtrip_amended_w :
    (isoShaped (str "2025-01-05") = true ∧
     isoShaped (str "2025-02-06") = true) ∧
    parseDateRange ⟨2025, 6, 15⟩
      (str "invoices " ++ (str "2025-01-05" ++
        (str " to " ++ (str "2025-02-06" ++ str "!")))) =
      some ⟨str "2025-01-05", str "2025-02-06"⟩ ∧
    qbParseDate ⟨2025, 6, 15⟩
      (str "today " ++ (str "2025-01-05" ++
        (str " to " ++ (str "2025-02-06" ++ str "!")))) =
      some ⟨str "2025-01-05", str "2025-02-06"⟩ :=
  ⟨⟨by decide, by decide⟩,
   (iso_roundtrip_amended ⟨2025, 6, 15⟩ (str "invoices ") (str "2025-01-05")
     (str "2025-02-06") (str "!") (by decide) (by decide) (by decide)).1
     (by decide) (by decide),
   (iso_roundtrip_amended ⟨2025, 6, 15⟩ (str "today ") (str "2025-01-05")
     (str "2025-02-06") (str "!") (by decide) (by decide) (by decide)).2⟩
